import Mathlib

/-!
Verification development for the financial RAG system
(`rag_pipeline.py`, `agent_system.py`, `utils.py`).

The Python code is shallowly embedded over `List Char` / `String`:
* Python `str` methods (`lower`, `strip`, `replace`, slicing, `split`) are
  translated to explicit functions on `List Char`.
* The handful of regular expressions used by the code
  (`re.search`, `re.findall`, `re.sub`) only combine literal words,
  `\w`, `\d{4}`, `\b` and `.*`; they are embedded by a small token
  matcher (`Tok`, `chainTok`, `searchPat`, `greedyChain`, `reSubAll`)
  mirroring Python semantics (`.` never matches a newline, `re.sub`
  replaces leftmost non-overlapping greedy matches, `re.findall` scans
  left to right).
* File IO, `pickle`, the sentence-transformer model and the query/chunk
  encoder are parameters: the encoder appears as an explicit function
  argument, the cache file as an `Option` value, the success of the
  cache write as a `Bool`.
* Floating point similarity scores are modelled as rationals; the
  embeddings are produced with `normalize_embeddings=True`, so the
  cosine similarity computed by the code coincides with the dot
  product, which is what `dotQ` computes.
-/

set_option maxRecDepth 10000

/-! ## Python string primitives -/

/-- Python `\w` word characters (ASCII fragment). -/
def isWordChar (c : Char) : Bool := c.isAlphanum || c == '_'

/-- Python whitespace as recognised by `str.strip()`. -/
def isPySpace (c : Char) : Bool :=
  c == ' ' || c == '\t' || c == '\n' || c == '\r' || c == '\x0b' || c == '\x0c'

/-- Python `str.lower()` (ASCII fragment). -/
def pyLower (s : String) : String := String.mk (s.toList.map Char.toLower)

/-- Python `str.strip()`. -/
def pyStrip (s : String) : String :=
  String.mk (((s.toList.dropWhile isPySpace).reverse.dropWhile isPySpace).reverse)

/-- Python slicing `s[:n]` for `n ≥ 0`. -/
def pySlice (s : String) (n : Nat) : String := String.mk (s.toList.take n)

/-- Substring test: `pat` occurs somewhere in `s` (Python `pat in s`). -/
def containsSub : List Char → List Char → Bool
  | s, pat =>
    match s with
    | [] => pat.isEmpty
    | _ :: rest => pat.isPrefixOf s || containsSub rest pat

/-- Python `str.replace(pat, repl)`: replace every non-overlapping
occurrence, scanning left to right.  (All patterns used by the code are
non-empty; an empty pattern is treated as matching nothing.)  `fuel`
bounds the recursion so the definition is structural (hence
kernel-computable); every step consumes at least one character, so a
fuel of `s.length` is always enough and the `0` case is never hit by
`replaceAll`. -/
def replaceAllAux (pat repl : List Char) : Nat → List Char → List Char
  | 0, s => s
  | _, [] => []
  | fuel + 1, c :: rest =>
    if pat ≠ [] ∧ pat.isPrefixOf (c :: rest) then
      repl ++ replaceAllAux pat repl fuel (List.drop pat.length (c :: rest))
    else
      c :: replaceAllAux pat repl fuel rest

/-- Python `str.replace(pat, repl)` on character lists. -/
def replaceAll (pat repl s : List Char) : List Char :=
  replaceAllAux pat repl s.length s

/-- Python `str.replace` on `String`s. -/
def pyReplace (s pat repl : String) : String :=
  String.mk (replaceAll pat.toList repl.toList s.toList)

/-- Python `str.split(sep)` for a one-character separator: splits on
every occurrence, keeping empty pieces (so `"a.b.".split "." =
["a","b",""]` and `"".split "." = [""]`). -/
def pySplitAux (sep : Char) : List Char → List (List Char)
  | [] => [[]]
  | c :: rest =>
    if c = sep then [] :: pySplitAux sep rest
    else
      match pySplitAux sep rest with
      | [] => [[c]]
      | g :: gs => (c :: g) :: gs

/-- Python `str.split(sep)` on `String`s. -/
def pySplit (sep : Char) (s : String) : List String :=
  (pySplitAux sep s.toList).map String.mk

/-! ## Regular-expression fragment

The regexes in `agent_system.py` are alternations of sequences of
literal words, `\d{4}` and single `\w` characters, glued with `.*`.
A `Tok` is one such fixed-width token; `searchPat toks s` decides
whether `tok₀.*tok₁.*…​.*tokₙ` matches somewhere in `s` (Python
`re.search`), where every `.*` gap must stay on one line because `.`
does not match `'\n'`. -/

inductive Tok where
  | lit : List Char → Tok
  | digits4 : Tok
deriving DecidableEq

/-- Length matched by `t` at the front of `seg`, if any. -/
def tokLen : Tok → List Char → Option Nat
  | .lit l, seg => if l.isPrefixOf seg then some l.length else none
  | .digits4, seg =>
    match seg with
    | a :: b :: c :: d :: _ =>
      if a.isDigit && b.isDigit && c.isDigit && d.isDigit then some 4 else none
    | _ => none

/-- Match `.*tok₀.*tok₁…​` at the start of `seg`: each gap consumed by
`.*` may not contain a newline. -/
def chainTok : List Tok → List Char → Bool
  | [], _ => true
  | t :: rest, seg =>
    let limit := (seg.takeWhile (fun c => c ≠ '\n')).length
    (List.range (limit + 1)).any (fun j =>
      match tokLen t (seg.drop j) with
      | some n => chainTok rest (seg.drop (j + n))
      | none => false)

/-- Python `re.search` for a pattern `tok₀.*tok₁.*…​`: the match may
start anywhere in `s`. -/
def searchPat (parts : List Tok) (s : List Char) : Bool :=
  match parts with
  | [] => true
  | t :: rest =>
    (List.range (s.length + 1)).any (fun i =>
      match tokLen t (s.drop i) with
      | some n => chainTok rest (s.drop (i + n))
      | none => false)

/-- Python `re.search(r'compar\w+', s)`: `compar` immediately followed
by at least one word character. -/
def comparWordMatch : List Char → Bool
  | [] => false
  | c :: rest =>
    (("compar".toList).isPrefixOf (c :: rest) &&
      isWordChar (((c :: rest).drop 6).headD ' ')) ||
    comparWordMatch rest

/-- Greedy match length of `tok₀.*tok₁.*…​.*tokₙ` anchored at the start
of `seg`, as computed by Python's backtracking engine.  For the
three-token patterns fed to `re.sub` in `decompose_query`, the greedy
(leftmost-longest-gap) end equals the maximal feasible end, which is
what this function computes. -/
def greedyChain : List Tok → List Char → Option Nat
  | [], _ => some 0
  | [t], seg => tokLen t seg
  | t :: rest, seg =>
    match tokLen t seg with
    | none => none
    | some n =>
      let seg2 := seg.drop n
      let limit := (seg2.takeWhile (fun c => c ≠ '\n')).length
      ((List.range (limit + 1)).filterMap (fun j =>
        (greedyChain rest (seg2.drop j)).map (fun m => n + j + m))).max?

/-- Python `re.sub(pattern, repl, s)` for a pattern `tok₀.*…​.*tokₙ`:
replace every leftmost non-overlapping greedy match.  (All patterns
used have matches of length ≥ 4; a hypothetical zero-length match is
skipped.)  As with `replaceAllAux`, `fuel` makes the recursion
structural; every step consumes at least one character, so a fuel of
`s.length` never runs out. -/
def reSubAllAux (parts : List Tok) (repl : List Char) : Nat → List Char → List Char
  | 0, s => s
  | _, [] => []
  | fuel + 1, c :: rest =>
    match greedyChain parts (c :: rest) with
    | some n =>
      if 1 ≤ n then
        repl ++ reSubAllAux parts repl fuel (List.drop n (c :: rest))
      else
        c :: reSubAllAux parts repl fuel rest
    | none => c :: reSubAllAux parts repl fuel rest

/-- Python `re.sub` for a token pattern, over a whole character list. -/
def reSubAll (parts : List Tok) (repl s : List Char) : List Char :=
  reSubAllAux parts repl s.length s

/-- One step of Python `re.findall(r'\b(20\d{2})\b', s)`: `prev` is the
character just before the current scan position (`none` at the start of
the string), used to decide the left word boundary. -/
def findYearsAux : Option Char → List Char → List (List Char)
  | _, [] => []
  | prev, '2' :: '0' :: d1 :: d2 :: rest2 =>
    if (match prev with
        | none => true
        | some p => !isWordChar p) && d1.isDigit && d2.isDigit &&
        (match rest2 with
         | [] => true
         | c2 :: _ => !isWordChar c2) then
      ['2', '0', d1, d2] :: findYearsAux (some d2) rest2
    else
      findYearsAux (some '2') ('0' :: d1 :: d2 :: rest2)
  | _, c :: rest => findYearsAux (some c) rest

/-- Python `re.findall(r'\b(20\d{2})\b', query)`. -/
def findall_years (q : String) : List String :=
  (findYearsAux none q.toList).map String.mk

/-- Python `re.search(r'\$[\d,]+', s)`: `$` immediately followed by a
digit or comma. -/
def hasDollarAmount : List Char → Bool
  | '$' :: c :: rest =>
    if c.isDigit || c == ',' then true else hasDollarAmount (c :: rest)
  | _ :: rest => hasDollarAmount rest
  | [] => false

/-- Python `re.search(r'[\d.]+%', s)`: a digit or dot immediately
followed by `%`. -/
def hasPercent : List Char → Bool
  | c :: '%' :: rest =>
    if c.isDigit || c == '.' then true else hasPercent ('%' :: rest)
  | _ :: rest => hasPercent rest
  | [] => false

/-- Python `re.search(r'\$[\d,]+|[\d.]+%|revenue|income|margin',
sentence, re.IGNORECASE)` from `_extract_answer`. -/
def financialSearch (s : String) : Bool :=
  let cs := s.toList
  let low := cs.map Char.toLower
  hasDollarAmount cs || hasPercent cs ||
    containsSub low "revenue".toList ||
    containsSub low "income".toList ||
    containsSub low "margin".toList

/-! ## Data model -/

/-- A chunk record as produced by the data-loading collaborators
(`rag_pipeline.load_processed_data`). -/
structure Chunk where
  text : String
  company : String
  year : Int
  «section» : String
  chunk_id : String
  source_file : String
deriving DecidableEq, Inhabited, Repr

/-- A search hit: the chunk's fields plus the `similarity_score` key
added by `SimpleRAGPipeline.search`.  Scores are rationals standing in
for the floats of the reference implementation. -/
structure SearchResult extends Chunk where
  similarity_score : ℚ
deriving DecidableEq, Inhabited, Repr

/-- The dictionary built by `utils.create_source_reference`. -/
structure SourceRef where
  company : String
  year : Int
  excerpt : String
  page : Option Int
  «section» : Option String
  filing_type : String
deriving DecidableEq, Inhabited, Repr

/-- The dictionary returned by
`SimpleFinancialAgent.search_and_extract_info`.  In Python the
not-found dictionary simply lacks the `results` / `source_chunks`
keys (they are only ever read when `found` is true); here they are
`[]` / `0` in that case. -/
structure SubResult where
  found : Bool
  answer : String
  results : List SearchResult
  source_chunks : Nat
deriving DecidableEq, Inhabited, Repr

/-- The response record built by `utils.format_financial_response`.
`datetime.now()` is a parameter. -/
structure Response where
  query : String
  answer : String
  reasoning : String
  sub_queries : List String
  sources : List SourceRef
  timestamp : String
deriving DecidableEq, Inhabited, Repr

/-- `utils.create_source_reference`. -/
def create_source_reference (company : String) (year : Int)
    (excerpt : String) (page : Option Int) («section» : Option String) :
    SourceRef :=
  { company := company
    year := year
    excerpt := if 200 < excerpt.length then pySlice excerpt 200 ++ "..." else excerpt
    page := page
    «section» := «section»
    filing_type := "10-K" }

/-- `utils.format_financial_response`. -/
def format_financial_response (query answer reasoning : String)
    (sub_queries : List String) (sources : List SourceRef)
    (timestamp : String) : Response :=
  { query := query
    answer := answer
    reasoning := reasoning
    sub_queries := sub_queries
    sources := sources
    timestamp := timestamp }

/-! ## SimpleRAGPipeline -/

/-- The pickled cache record (`model` / `embeddings` / `chunks`); the
opaque model object is reduced to its presence. -/
structure CacheData where
  embeddings : List (List ℚ)
  chunks : List Chunk

/-- The mutable state of `SimpleRAGPipeline`: `self.model` (presence
only), `self.embeddings`, `self.chunks`. -/
structure RAGPipeline where
  model : Option Unit
  embeddings : Option (List (List ℚ))
  chunks : List Chunk

/-- `SimpleRAGPipeline.__init__`. -/
def RAGPipeline.init : RAGPipeline := { model := none, embeddings := none, chunks := [] }

/-- The exception escaping `build_embeddings` when the cache write
(`open` / `pickle.dump`) fails. -/
inductive BuildErr where
  | writeFailed
deriving DecidableEq, Repr

namespace SimpleRAGPipeline

/-- `SimpleRAGPipeline.build_embeddings`.

External effects are parameters: `encodeList` is
`self.model.encode(·, normalize_embeddings=True)`, `cache` the content
of the cache file (`none` when the file does not exist),
`sourceChunks` the value of `self.load_processed_data()` (file IO),
`writeOk` whether `open(cache_file,'wb')`/`pickle.dump` succeeds.
Returns the state after the call together with the exception that
escapes it, if any.  Note that the cache write is NOT wrapped in any
`try`/`except`: when it fails the already-assigned in-memory state
survives but the exception propagates. -/
def build_embeddings (encodeList : List String → List (List ℚ))
    (cache : Option CacheData) (sourceChunks : List Chunk)
    (writeOk : Bool) (p : RAGPipeline) (force_rebuild : Bool) :
    RAGPipeline × Option BuildErr :=
  match cache, force_rebuild with
  | some cd, false =>
    ({ model := some (), embeddings := some cd.embeddings, chunks := cd.chunks }, none)
  | _, _ =>
    let chunks := sourceChunks
    if chunks.isEmpty then
      ({ p with chunks := [] }, none)
    else
      let chunk_texts := chunks.map (fun chunk => chunk.text)
      let embeddings := encodeList chunk_texts
      let st : RAGPipeline :=
        { model := some (), embeddings := some embeddings, chunks := chunks }
      if writeOk then (st, none) else (st, some BuildErr.writeFailed)

/-- Dot product; the cosine similarity of the pre-normalized vectors
used by `search` (`normalize_embeddings=True` at encoding time). -/
def dotQ (u v : List ℚ) : ℚ := (List.zipWith (fun a b => a * b) u v).sum

/-- `numpy.argsort` (ascending) of a similarity vector, as a list of
indices.  Modelled as a stable insertion sort; the ordering and length
facts proved below do not depend on the sorting algorithm. -/
def argsortAsc (sims : List ℚ) : List Nat :=
  List.insertionSort (fun i j => sims.getD i 0 ≤ sims.getD j 0) (List.range sims.length)

/-- Python slice `a[-k:]` for a natural `k`: the last `min k n`
elements when `k ≥ 1`, the WHOLE list when `k = 0` (since `-0 == 0`). -/
def lastSlice (l : List α) (k : Nat) : List α :=
  if k = 0 then l else l.drop (l.length - k)

/-- `SimpleRAGPipeline.search`.  `encode` is
`self.model.encode([query], normalize_embeddings=True)[0]`. -/
def search (encode : String → List ℚ) (p : RAGPipeline)
    (query : String) (top_k : Nat) : List SearchResult :=
  if p.model.isNone || p.embeddings.isNone then []
  else
    let embs := p.embeddings.getD []
    let query_embedding := encode query
    let similarities := embs.map (fun e => dotQ query_embedding e)
    let top_indices := (lastSlice (argsortAsc similarities) top_k).reverse
    top_indices.filterMap (fun idx =>
      (p.chunks.get? idx).map (fun c =>
        { toChunk := c, similarity_score := similarities.getD idx 0 }))

end SimpleRAGPipeline

/-! ## SimpleFinancialAgent -/

namespace SimpleFinancialAgent

/-- `SimpleFinancialAgent.classify_query`.  The pattern lists
`comparative_patterns` and `multi_year_patterns` from `__init__` are
inlined in source order; `re.search` runs on `query.lower()`. -/
def classify_query (query : String) : String :=
  let ql := (pyLower query).toList
  if comparWordMatch ql ||
      (containsSub ql "vs".toList || containsSub ql "versus".toList) ||
      (searchPat [.lit "which".toList, .lit "highest".toList] ql ||
        searchPat [.lit "which".toList, .lit "lowest".toList] ql ||
        searchPat [.lit "which".toList, .lit "best".toList] ql) ||
      searchPat [.lit "growth".toList, .lit "from".toList, .lit "to".toList] ql ||
      containsSub ql "all three companies".toList ||
      searchPat [.lit "across".toList, .lit "companies".toList] ql then
    "comparative"
  else if searchPat [.digits4, .lit "to".toList, .digits4] ql ||
      searchPat [.lit "from".toList, .digits4, .lit "to".toList, .digits4] ql ||
      searchPat [.lit "growth".toList, .digits4, .digits4] ql then
    "multi_year"
  else
    "simple"

/-- `SimpleFinancialAgent.decompose_query`.  Note that the comparative
substitutions run on the ORIGINAL (not lowercased) query text via the
case-sensitive `str.replace`, and that `re.findall` keeps duplicate
year tokens. -/
def decompose_query (query : String) : List String :=
  let query_type := classify_query query
  if query_type = "simple" then
    [query]
  else if query_type = "comparative" then
    let companies := ["Microsoft", "Google", "NVIDIA"]
    companies.map (fun company =>
      let modified_query := pyReplace query "which company" company
      let modified_query := pyReplace modified_query "all three companies" company
      pyReplace modified_query "companies" company)
  else if query_type = "multi_year" then
    let years := findall_years query
    if 2 ≤ years.length then
      years.map (fun year =>
        let year_query :=
          String.mk (reSubAll [.lit "from".toList, .lit "to".toList, .digits4]
            ("in " ++ year).toList query.toList)
        String.mk (reSubAll [.digits4, .lit "to".toList, .digits4]
          year.toList year_query.toList))
    else [query]
  else [query]

/-- `SimpleFinancialAgent._extract_answer`.  The sentence loop is a
left fold appending the stripped matching sentences, exactly as the
Python `for`/`append` loop does. -/
def extract_answer (text : String) (results : List SearchResult) : String :=
  match results with
  | [] => "Information not found in the available documents."
  | best_chunk :: _ =>
    let sentences := pySplit '.' text
    let financial_sentences := sentences.foldl
      (fun acc sentence =>
        if financialSearch sentence then acc ++ [pyStrip sentence] else acc) []
    if financial_sentences ≠ [] then
      String.intercalate ". " (financial_sentences.take 2) ++ "."
    else
      pySlice best_chunk.text 300 ++ "..."

/-- `SimpleFinancialAgent.search_and_extract_info`.  `searchFn q` is
`self.rag.search(q, top_k=3)`. -/
def search_and_extract_info (searchFn : String → List SearchResult)
    (query : String) : SubResult :=
  let results := searchFn query
  if results.isEmpty then
    { found := false, answer := "No relevant information found",
      results := [], source_chunks := 0 }
  else
    let combined_text := String.intercalate " " ((results.take 2).map (fun r => r.text))
    let answer := extract_answer combined_text results
    { found := true, answer := answer, results := results,
      source_chunks := results.length }

/-- `SimpleFinancialAgent.synthesize_results`.  List indexing is
modelled with `get?`; the result is `none` exactly when Python would
raise an `IndexError` (the growth branch reading `sub_results[0]` and
`sub_results[1]`). -/
def synthesize_results (query : String) (sub_results : List SubResult) :
    Option String :=
  if sub_results.length = 1 then
    (sub_results.get? 0).map (fun r => r.answer)
  else if classify_query query = "comparative" then
    let synthesis := "Based on the filings analysis:\n\n" ++
      String.join (sub_results.map (fun result =>
        if result.found then "• " ++ result.answer ++ "\n" else ""))
    let synthesis :=
      if containsSub (pyLower query).toList "which company".toList &&
          containsSub (pyLower query).toList "highest".toList then
        synthesis ++ "\nBased on the available data, specific comparison requires detailed financial analysis."
      else synthesis
    some synthesis
  else if containsSub (pyLower query).toList "growth".toList then
    match sub_results.get? 0, sub_results.get? 1 with
    | some r0, some r1 =>
      some ("Growth analysis: " ++ r0.answer ++ " compared to " ++ r1.answer)
    | _, _ => none
  else
    some (String.intercalate "; "
      ((sub_results.filter (fun r => r.found)).map (fun r => r.answer)))

/-- The `(company, year, section)` deduplication key used by
`answer_query`. -/
def sourceKey (s : SourceRef) : String × Int × Option String :=
  (s.company, s.year, s.«section»)

/-- The source-accumulation loop of `answer_query`: for every found
sub-result, the top two chunks become source references (with the
chunk text pre-truncated to 200 characters by the caller). -/
def collect_sources (sub_results : List SubResult) : List SourceRef :=
  (sub_results.map (fun result =>
    if result.found then
      (result.results.take 2).map (fun chunk =>
        create_source_reference chunk.company chunk.year
          (pySlice chunk.text 200) none (some chunk.«section»))
    else [])).flatten

/-- The duplicate-removal loop of `answer_query`: `seen` is the
`seen_sources` set of keys (a list with the same membership). -/
def dedup_sources_aux (seen : List (String × Int × Option String)) :
    List SourceRef → List SourceRef
  | [] => []
  | s :: rest =>
    if sourceKey s ∈ seen then dedup_sources_aux seen rest
    else s :: dedup_sources_aux (sourceKey s :: seen) rest

/-- Deduplicate sources by `(company, year, section)`, keeping the
first occurrence of each key. -/
def dedup_sources (l : List SourceRef) : List SourceRef := dedup_sources_aux [] l

/-- `SimpleFinancialAgent.answer_query`.  `searchFn` stands for
`self.rag.search(·, top_k=3)` and `timestamp` for `datetime.now()`.
The result is `none` exactly when `synthesize_results` would raise. -/
def answer_query (searchFn : String → List SearchResult)
    (query : String) (timestamp : String) : Option Response :=
  let sub_queries := decompose_query query
  let sub_results := sub_queries.map (search_and_extract_info searchFn)
  match synthesize_results query sub_results with
  | none => none
  | some final_answer =>
    let all_sources := collect_sources sub_results
    let unique_sources := dedup_sources all_sources
    let reasoning := "Processed " ++ toString sub_queries.length ++
      " sub-queries and retrieved information from " ++
      toString unique_sources.length ++ " sources across the filings."
    some (format_financial_response query final_answer reasoning
      sub_queries (unique_sources.take 5) timestamp)

end SimpleFinancialAgent

/-! ## Specification-side definitions and concrete fixtures -/

/-- The per-sub-query retrieval step as the specification describes it:
« If empty, returns found=false with a fixed "no relevant information"
answer string. Else concatenates the text of the top 2 hits and
extracts an answer by: splitting on sentence boundaries, keeping
sentences matching a financial-signal pattern (currency symbol,
percentage, or keywords "revenue"/"income"/"margin", case-insensitive),
joining the first two matches with ". " plus trailing period.  If no
sentence matches, falls back to the single best-ranked chunk's text
truncated to the first 300 characters plus an ellipsis marker. »
(Matching sentences are whitespace-stripped, as in the code.) -/
def retrieve_spec (searchFn : String → List SearchResult) (query : String) :
    SubResult :=
  let results := searchFn query
  if results = [] then
    { found := false, answer := "No relevant information found",
      results := [], source_chunks := 0 }
  else
    let combined := String.intercalate " " ((results.take 2).map (fun r => r.text))
    let matched := ((pySplit '.' combined).filter financialSearch).map pyStrip
    let answer :=
      if matched = [] then pySlice ((results.headD default).text) 300 ++ "..."
      else String.intercalate ". " (matched.take 2) ++ "."
    { found := true, answer := answer, results := results,
      source_chunks := results.length }

/-- The comparative scenario query of the specification. -/
def c1Query : String := "Which company had the highest operating margin in 2023?"

/-- A query classified `multi_year` whose two year tokens are the same
year (one distinct year). -/
def c2Query : String := "revenue grew 2022 to 2022"

/-- A multi-year query with two distinct years. -/
def c2WitnessQuery : String := "How did revenue grow from 2022 to 2023?"

/-- A sample chunk. -/
def chunk0 : Chunk :=
  { text := "Revenue was $5 million in total for the year reported here"
    company := "Microsoft"
    year := 2023
    «section» := "item7"
    chunk_id := "MSFT_2023_item7_0"
    source_file := "MSFT_2023_api_data" }

/-- A concrete chunk encoder. -/
def encConst : List String → List (List ℚ) := fun ts => ts.map (fun _ => [1])

/-- A concrete query encoder. -/
def enc1 : String → List ℚ := fun _ => [1]

/-- A concrete query encoder producing the empty vector. -/
def encNil : String → List ℚ := fun _ => []

/-- The pipeline state after `build_embeddings` runs over an empty
chunk store (no processed data): `self.chunks = []`, model and
embeddings never assigned. -/
def emptyPipeline : RAGPipeline :=
  (SimpleRAGPipeline.build_embeddings encConst none [] true RAGPipeline.init false).1

/-- `self.rag.search(·, top_k=3)` over the empty-store pipeline. -/
def sfEmptyPipe (encode : String → List ℚ) : String → List SearchResult :=
  fun sq => SimpleRAGPipeline.search encode emptyPipeline sq 3

/-- A comparative query without the phrase "which company". -/
def c4Query : String := "Compare revenue of Microsoft and Google"

/-- The response produced for the simple query `"hello"` when every
search comes back empty. -/
def c4Resp : Response :=
  { query := "hello"
    answer := "No relevant information found"
    reasoning := "Processed 1 sub-queries and retrieved information from 0 sources across the filings."
    sub_queries := ["hello"]
    sources := []
    timestamp := "t" }

/-- A chunk whose text is 250 characters long (strictly longer than the
200-character excerpt cap). -/
def bigChunk : Chunk :=
  { text := String.mk (List.replicate 250 'a')
    company := "Microsoft"
    year := 2023
    «section» := "item1"
    chunk_id := "MSFT_2023_item1_0"
    source_file := "MSFT_2023_api_data" }

/-- `bigChunk` as a search hit. -/
def bigRes : SearchResult := { toChunk := bigChunk, similarity_score := 1 }

/-- A search function returning the single long chunk for every query. -/
def sfBig : String → List SearchResult := fun _ => [bigRes]

/-- The response produced for the simple query `"hello"` under `sfBig`:
the excerpt is the first 200 characters of the 250-character chunk text
with NO ellipsis appended. -/
def rBig : Response :=
  { query := "hello"
    answer := String.mk (List.replicate 250 'a') ++ "..."
    reasoning := "Processed 1 sub-queries and retrieved information from 1 sources across the filings."
    sub_queries := ["hello"]
    sources := [{ company := "Microsoft"
                  year := 2023
                  excerpt := String.mk (List.replicate 200 'a')
                  page := none
                  «section» := some "item1"
                  filing_type := "10-K" }]
    timestamp := "t" }

/-- A built one-chunk pipeline (embeddings aligned with chunks). -/
def p6 : RAGPipeline :=
  { model := some (), embeddings := some [[1]], chunks := [chunk0] }

/-- The search function returning no hits at all. -/
def sfNone : String → List SearchResult := fun _ => []

/-- The response produced for the simple query `"x"` under `sfNone`. -/
def r7 : Response :=
  { query := "x"
    answer := "No relevant information found"
    reasoning := "Processed 1 sub-queries and retrieved information from 0 sources across the filings."
    sub_queries := ["x"]
    sources := []
    timestamp := "t" }

/-! ## Helper lemmas -/

open SimpleFinancialAgent SimpleRAGPipeline

/-- `(pySlice s n).length ≤ n`. -/
lemma pySlice_length_le (s : String) (n : Nat) : (pySlice s n).length ≤ n := by
  show (s.toList.take n).length ≤ n
  exact List.length_take_le n s.toList

/-- When a query is classified `simple`, decomposition returns the
original query alone. -/
lemma decompose_query_of_simple {q : String}
    (h : classify_query q = "simple") : decompose_query q = [q] := by
  unfold decompose_query
  rw [h, if_pos rfl]

/-- When a query is classified `comparative`, decomposition substitutes
each hardcoded company name (case-sensitively) into the original query. -/
lemma decompose_query_of_comparative {q : String}
    (h : classify_query q = "comparative") :
    decompose_query q = ["Microsoft", "Google", "NVIDIA"].map (fun company =>
      pyReplace (pyReplace (pyReplace q "which company" company)
        "all three companies" company) "companies" company) := by
  unfold decompose_query
  rw [h, if_neg (by decide), if_pos rfl]

/-- The fallback case of `decompose_query`. -/
lemma decompose_query_of_other {q : String}
    (h1 : classify_query q ≠ "simple") (h2 : classify_query q ≠ "comparative")
    (h3 : classify_query q ≠ "multi_year") : decompose_query q = [q] := by
  unfold decompose_query
  simp only [if_neg h1, if_neg h2, if_neg h3]

/-- When a query is classified `multi_year`, decomposition branches on
the number of extracted year tokens (duplicates included). -/
lemma decompose_query_of_multi_year {q : String}
    (h : classify_query q = "multi_year") :
    decompose_query q =
      (if 2 ≤ (findall_years q).length then
        (findall_years q).map (fun year =>
          let year_query :=
            String.mk (reSubAll [.lit "from".toList, .lit "to".toList, .digits4]
              ("in " ++ year).toList q.toList)
          String.mk (reSubAll [.digits4, .lit "to".toList, .digits4]
            year.toList year_query.toList))
      else [q]) := by
  unfold decompose_query
  rw [h, if_neg (by decide), if_neg (by decide), if_pos rfl]

/-- `decompose_query` never returns the empty list. -/
lemma decompose_query_ne_nil (q : String) : decompose_query q ≠ [] := by
  by_cases h1 : classify_query q = "simple"
  · rw [decompose_query_of_simple h1]; simp
  · by_cases h2 : classify_query q = "comparative"
    · rw [decompose_query_of_comparative h2]; simp
    · by_cases h3 : classify_query q = "multi_year"
      · rw [decompose_query_of_multi_year h3]
        split
        · rename_i hlen
          intro hc
          have := congrArg List.length hc
          simp only [List.length_map, List.length_nil] at this
          omega
        · simp
      · rw [decompose_query_of_other h1 h2 h3]; simp

/-- `synthesize_results` succeeds on every non-empty result list. -/
lemma synthesize_results_isSome (q : String) (l : List SubResult)
    (h : l ≠ []) : (synthesize_results q l).isSome := by
  have hpos : 0 < l.length := List.length_pos.mpr h
  unfold synthesize_results
  split
  · rename_i h1
    rw [List.get?_eq_get (by omega)]
    simp
  · rename_i h1
    split
    · simp
    · split
      · have h2 : 2 ≤ l.length := by
          rcases Nat.lt_or_ge l.length 2 with hlt | hge
          · interval_cases hl : l.length <;> omega
          · exact hge
        rw [List.get?_eq_get (by omega), List.get?_eq_get (by omega)]
        simp
      · simp

/-- The two fields of a successful `answer_query` response that the
claims inspect: the synthesized answer and the deduplicated, capped
source list. -/
lemma answer_query_fields {sf : String → List SearchResult}
    {q ts : String} {r : Response}
    (h : answer_query sf q ts = some r) :
    synthesize_results q ((decompose_query q).map (search_and_extract_info sf)) =
      some r.answer ∧
    r.sources =
      (dedup_sources (collect_sources
        ((decompose_query q).map (search_and_extract_info sf)))).take 5 := by
  simp only [answer_query] at h
  cases hs : synthesize_results q ((decompose_query q).map (search_and_extract_info sf)) with
  | none => rw [hs] at h; exact absurd h (by simp)
  | some fa =>
    rw [hs] at h
    simp only [Option.some.injEq] at h
    subst h
    exact ⟨rfl, rfl⟩

/-- The deduplication loop only keeps elements of its input, in order. -/
lemma dedup_sources_aux_sublist :
    ∀ (l : List SourceRef) (seen), List.Sublist (dedup_sources_aux seen l) l := by
  intro l
  induction l with
  | nil => intro seen; simp [dedup_sources_aux]
  | cons x xs ih =>
    intro seen
    by_cases hx : sourceKey x ∈ seen
    · rw [dedup_sources_aux, if_pos hx]
      exact (ih seen).trans (List.sublist_cons_self x xs)
    · rw [dedup_sources_aux, if_neg hx]
      exact (ih _).cons₂ x

/-- The deduplication loop emits pairwise-distinct keys, none of which
was already in `seen`. -/
lemma dedup_sources_aux_nodup :
    ∀ (l : List SourceRef) (seen),
      ((dedup_sources_aux seen l).map sourceKey).Nodup ∧
      ∀ k ∈ (dedup_sources_aux seen l).map sourceKey, k ∉ seen := by
  intro l
  induction l with
  | nil => intro seen; simp [dedup_sources_aux]
  | cons x xs ih =>
    intro seen
    by_cases hx : sourceKey x ∈ seen
    · rw [dedup_sources_aux, if_pos hx]
      exact ih seen
    · rw [dedup_sources_aux, if_neg hx]
      obtain ⟨hnd, hmem⟩ := ih (sourceKey x :: seen)
      constructor
      · simp only [List.map_cons, List.nodup_cons]
        exact ⟨fun hc => (hmem _ hc) (List.mem_cons_self _ _), hnd⟩
      · intro k hk
        simp only [List.map_cons, List.mem_cons] at hk
        rcases hk with rfl | hk
        · exact hx
        · exact fun hc => (hmem k hk) (List.mem_cons_of_mem _ hc)

/-- Every element kept by the deduplication loop is the FIRST element
of the input carrying its key. -/
lemma dedup_sources_aux_find :
    ∀ (l : List SourceRef) (seen) (s : SourceRef),
      s ∈ dedup_sources_aux seen l →
      sourceKey s ∉ seen ∧
        l.find? (fun t => decide (sourceKey t = sourceKey s)) = some s := by
  intro l
  induction l with
  | nil => intro seen s hs; simp [dedup_sources_aux] at hs
  | cons x xs ih =>
    intro seen s hs
    by_cases hx : sourceKey x ∈ seen
    · rw [dedup_sources_aux, if_pos hx] at hs
      obtain ⟨hnot, hfind⟩ := ih seen s hs
      have hne : ¬ (sourceKey x = sourceKey s) := fun he => hnot (he ▸ hx)
      refine ⟨hnot, ?_⟩
      rw [List.find?_cons_of_neg _ (by simpa using hne), hfind]
    · rw [dedup_sources_aux, if_neg hx] at hs
      rcases List.mem_cons.mp hs with rfl | hs'
      · exact ⟨hx, List.find?_cons_of_pos _ (by simp)⟩
      · obtain ⟨hnot, hfind⟩ := ih _ s hs'
        have h1 : sourceKey s ∉ seen := fun hc => hnot (List.mem_cons_of_mem _ hc)
        have h2 : ¬ (sourceKey x = sourceKey s) :=
          fun he => hnot (he ▸ List.mem_cons_self _ _)
        refine ⟨h1, ?_⟩
        rw [List.find?_cons_of_neg _ (by simpa using h2), hfind]

/-- If no sub-result was found, the source-accumulation loop collects
nothing. -/
lemma collect_sources_of_not_found {l : List SubResult}
    (h : ∀ r ∈ l, r.found = false) : collect_sources l = [] := by
  induction l with
  | nil => rfl
  | cons x xs ih =>
    have hx : x.found = false := h x (List.mem_cons_self _ _)
    have hxs := ih (fun r hr => h r (List.mem_cons_of_mem _ hr))
    simp only [collect_sources, List.map_cons, List.flatten_cons, hx] at *
    simpa using hxs

/-- Every collected source reference is built from one of the top two
chunks of a found sub-result. -/
lemma collect_sources_mem {sub_results : List SubResult} {s : SourceRef}
    (h : s ∈ collect_sources sub_results) :
    ∃ result ∈ sub_results, result.found = true ∧
      ∃ chunk ∈ result.results.take 2,
        s = create_source_reference chunk.company chunk.year
          (pySlice chunk.text 200) none (some chunk.«section») := by
  unfold collect_sources at h
  rw [List.mem_flatten] at h
  obtain ⟨l, hl, hsl⟩ := h
  rw [List.mem_map] at hl
  obtain ⟨result, hres, rfl⟩ := hl
  by_cases hf : result.found = true
  · rw [if_pos hf] at hsl
    rw [List.mem_map] at hsl
    obtain ⟨chunk, hc, rfl⟩ := hsl
    exact ⟨result, hres, hf, chunk, hc, rfl⟩
  · rw [if_neg hf] at hsl
    simp at hsl

/-- A found `search_and_extract_info` record carries the raw search
hits in its `results` field. -/
lemma search_and_extract_info_results {sf : String → List SearchResult}
    {q : String} (h : (search_and_extract_info sf q).found = true) :
    (search_and_extract_info sf q).results = sf q := by
  unfold search_and_extract_info at *
  by_cases he : (sf q).isEmpty
  · simp [he] at h
  · simp [he]

/-- `filterMap` collapses to `map` when the function always succeeds. -/
lemma filterMap_eq_map_of_forall {α β : Type _} {f : α → Option β} {g : α → β} :
    ∀ {l : List α}, (∀ a ∈ l, f a = some (g a)) → l.filterMap f = l.map g := by
  intro l
  induction l with
  | nil => intro _; rfl
  | cons x xs ih =>
    intro h
    rw [List.filterMap_cons_some (h x (List.mem_cons_self _ _)),
      List.map_cons, ih (fun a ha => h a (List.mem_cons_of_mem _ ha))]

/-- The append-matching-sentences loop of `_extract_answer` is
`filter` followed by `map`. -/
lemma foldl_append_filter (p : String → Bool) (g : String → String) :
    ∀ (l : List String) (acc : List String),
      l.foldl (fun acc s => if p s then acc ++ [g s] else acc) acc =
        acc ++ (l.filter p).map g := by
  intro l
  induction l with
  | nil => intro acc; simp
  | cons x xs ih =>
    intro acc
    by_cases hp : p x
    · simp [List.foldl_cons, hp, ih, List.filter_cons]
    · simp [List.foldl_cons, hp, ih, List.filter_cons]

/-! ## Claim theorems -/

/-- C1, counterexample: for the scenario query, `decompose_query`
returns three sub-queries but none of them has "which company"
replaced by an entity name — `str.replace` is case-sensitive and the
query capitalizes "Which", so every sub-query is the original text and
the first one does not even mention "Microsoft". -/
theorem C1_counterexample :
    classify_query c1Query = "comparative" ∧
    decompose_query c1Query = [c1Query, c1Query, c1Query] ∧
    containsSub c1Query.toList "Microsoft".toList = false ∧
    c1Query ≠ "Microsoft had the highest operating margin in 2023?" := by
  refine ⟨by decide, by decide, by decide, by decide⟩

/-- C1, amended: the query is classified `comparative` and
`decompose_query` returns exactly 3 sub-queries, one per tracked
entity, but each sub-query equals the original query text unchanged:
the case-sensitive replacement of the lowercase phrase "which company"
finds no occurrence in a query that capitalizes "Which". -/
theorem C1_theorem :
    classify_query c1Query = "comparative" ∧
    decompose_query c1Query = [c1Query, c1Query, c1Query] :=
  ⟨by decide, by decide⟩

/-- C2, counterexample: a query classified `multi_year` whose two year
tokens are identical (a single distinct year) is NOT decomposed into
the single-element `[query]`: `re.findall` keeps duplicates, so two
sub-queries are produced. -/
theorem C2_counterexample :
    classify_query c2Query = "multi_year" ∧
    (findall_years c2Query).dedup = ["2022"] ∧
    decompose_query c2Query = ["revenue grew 2022", "revenue grew 2022"] ∧
    decompose_query c2Query ≠ [c2Query] := by
  refine ⟨by decide, by decide, by decide, by decide⟩

/-- C2, amended: for every query classified `multi_year`,
`decompose_query` extracts every `20XX` token OCCURRENCE (duplicates
included); when fewer than two tokens are found it returns `[query]`,
and otherwise it returns one sub-query per token occurrence — in
particular exactly 2 sub-queries when exactly 2 year tokens occur. -/
theorem C2_theorem (q : String) (h : classify_query q = "multi_year") :
    ((findall_years q).length < 2 → decompose_query q = [q]) ∧
    (2 ≤ (findall_years q).length →
      (decompose_query q).length = (findall_years q).length) := by
  rw [decompose_query_of_multi_year h]
  constructor
  · intro hlt
    rw [if_neg (by omega)]
  · intro hge
    rw [if_pos hge, List.length_map]

/-- C2, witness: the two-distinct-year scenario query yields exactly
two sub-queries. -/
theorem C2_witness :
    classify_query c2WitnessQuery = "multi_year" ∧
    2 ≤ (findall_years c2WitnessQuery).length ∧
    (decompose_query c2WitnessQuery).length = (findall_years c2WitnessQuery).length :=
  ⟨by decide, by decide,
    (C2_theorem c2WitnessQuery (by decide)).2 (by decide)⟩

/-- C3, counterexample: when the cache write fails,
`build_embeddings` does NOT swallow the failure — the exception
(`BuildErr.writeFailed`) propagates to the caller, because the
`open`/`pickle.dump` block has no `try`/`except` around it. -/
theorem C3_counterexample :
    (SimpleRAGPipeline.build_embeddings encConst none [chunk0] false
      RAGPipeline.init false).2 = some BuildErr.writeFailed := by
  rfl

/-- C3, amended: if the cache write fails during `build_embeddings`
(no usable cache, non-empty chunk store), the in-memory model,
embeddings and chunks HAVE all been assigned before the failure and
remain usable, but the exception propagates to the caller — the build
does not complete normally. -/
theorem C3_theorem (encodeList : List String → List (List ℚ))
    (sourceChunks : List Chunk) (p : RAGPipeline) (force : Bool)
    (h : sourceChunks ≠ []) :
    SimpleRAGPipeline.build_embeddings encodeList none sourceChunks false p force =
      ({ model := some ()
         embeddings := some (encodeList (sourceChunks.map (fun c => c.text)))
         chunks := sourceChunks }, some BuildErr.writeFailed) := by
  have hne : sourceChunks.isEmpty = false := by
    cases sourceChunks with
    | nil => exact absurd rfl h
    | cons a l => rfl
  cases force <;> simp [SimpleRAGPipeline.build_embeddings, hne]

/-- C3, witness: the amended theorem at a concrete chunk store. -/
theorem C3_witness :
    ([chunk0] : List Chunk) ≠ [] ∧
    SimpleRAGPipeline.build_embeddings encConst none [chunk0] false
        RAGPipeline.init false =
      ({ model := some ()
         embeddings := some (encConst [chunk0.text])
         chunks := [chunk0] }, some BuildErr.writeFailed) := by
  refine ⟨by decide, ?_⟩
  have := C3_theorem encConst [chunk0] RAGPipeline.init false (by decide)
  simpa using this

/-- C8: `decompose_query` is total (its Lean embedding is a function,
mirroring that no raising operation occurs in the Python code), never
returns the empty sequence, and returns exactly `[query]` for queries
classified `simple`. -/
theorem C8_theorem (q : String) :
    decompose_query q ≠ [] ∧
    (classify_query q = "simple" → decompose_query q = [q]) :=
  ⟨decompose_query_ne_nil q, fun h => decompose_query_of_simple h⟩

/-- C8, witness: the theorem at a concrete simple query. -/
theorem C8_witness :
    classify_query "hello" = "simple" ∧
    decompose_query "hello" = ["hello"] ∧
    decompose_query "hello" ≠ [] := by
  have h := C8_theorem "hello"
  exact ⟨by decide, h.2 (by decide), h.1⟩

/-- C10: `answer_query` never indexes `sub_results[1]` out of range:
for every search function and query, the synthesis step (modelled with
`get?`, returning `none` exactly where Python would raise an
`IndexError`) succeeds, so `answer_query` always returns a response. -/
theorem C10_theorem (sf : String → List SearchResult) (q ts : String) :
    (answer_query sf q ts).isSome := by
  have hne : (decompose_query q).map (search_and_extract_info sf) ≠ [] := by
    intro hc
    exact decompose_query_ne_nil q (List.map_eq_nil.mp hc)
  have hs := synthesize_results_isSome q _ hne
  cases hv : synthesize_results q ((decompose_query q).map (search_and_extract_info sf)) with
  | none => rw [hv] at hs; simp at hs
  | some fa => simp [answer_query, hv]

/-- C9: the retrieval step behaves exactly as the specification
describes it — found=false with the fixed answer exactly when search
returns no results, otherwise the answer is built from the
concatenated text of the top 2 hits by keeping the sentences matching
the financial-signal pattern and joining the first two with ". " plus
a trailing period, falling back to the best chunk's first 300
characters plus "..." when no sentence matches. -/
theorem C9_theorem (sf : String → List SearchResult) (q : String) :
    search_and_extract_info sf q = retrieve_spec sf q := by
  unfold search_and_extract_info retrieve_spec extract_answer
  cases hr : sf q with
  | nil => rfl
  | cons best rest =>
    rw [if_neg (by simp), if_neg (by simp [List.cons_ne_nil])]
    simp only [List.headD_cons, SubResult.mk.injEq]
    refine ⟨trivial, ?_, trivial, trivial⟩
    generalize pySplit '.'
      (String.intercalate " " (((best :: rest).take 2).map (fun r => r.text))) = sents
    rw [foldl_append_filter financialSearch pyStrip sents [], List.nil_append, ite_not]

/-- C4, counterexample: with an empty chunk store, `answer_query` on a
comparative query does NOT return the fixed "No relevant information
found" answer — the comparative synthesis template is returned instead
(sources are still empty). -/
theorem C4_counterexample :
    (answer_query (sfEmptyPipe encNil) c4Query "t").map
        (fun r => (r.answer, r.sources)) =
      some ("Based on the filings analysis:\n\n", []) ∧
    ("Based on the filings analysis:\n\n" : String) ≠ "No relevant information found" := by
  refine ⟨by decide, by decide⟩

/-- C4, amended: with an empty chunk store, `search` returns `[]` for
every query and every `top_k`, and `answer_query` always returns a
response with an empty source list; the answer is the fixed "No
relevant information found" string exactly for the queries whose
decomposition is a single sub-query (multi-sub-query decompositions
run the comparative/growth/default synthesis templates over the
not-found sub-answers instead). -/
theorem C4_theorem (encode : String → List ℚ) :
    (∀ q k, SimpleRAGPipeline.search encode emptyPipeline q k = []) ∧
    (∀ q ts r, answer_query (sfEmptyPipe encode) q ts = some r →
      r.sources = [] ∧
      ((decompose_query q).length = 1 → r.answer = "No relevant information found")) := by
  have hsearch : ∀ q k, SimpleRAGPipeline.search encode emptyPipeline q k = [] :=
    fun q k => rfl
  refine ⟨hsearch, ?_⟩
  intro q ts r h
  have hnf : ∀ sq, search_and_extract_info (sfEmptyPipe encode) sq =
      { found := false, answer := "No relevant information found",
        results := [], source_chunks := 0 } := fun sq => rfl
  obtain ⟨hans, hsrc⟩ := answer_query_fields h
  constructor
  · rw [hsrc]
    have hcoll : collect_sources
        ((decompose_query q).map (search_and_extract_info (sfEmptyPipe encode))) = [] := by
      apply collect_sources_of_not_found
      intro rr hrr
      rw [List.mem_map] at hrr
      obtain ⟨sq, _, rfl⟩ := hrr
      rw [hnf]
    rw [hcoll]
    rfl
  · intro hlen
    obtain ⟨a, ha⟩ := List.length_eq_one.mp hlen
    rw [ha] at hans
    simp only [List.map_cons, List.map_nil, hnf] at hans
    unfold synthesize_results at hans
    simp at hans
    exact hans.symm

/-- C4, witness: the amended theorem at the concrete simple query
`"hello"`. -/
theorem C4_witness :
    answer_query (sfEmptyPipe encNil) "hello" "t" = some c4Resp ∧
    c4Resp.sources = [] ∧
    (decompose_query "hello").length = 1 ∧
    c4Resp.answer = "No relevant information found" := by
  have happ := (C4_theorem encNil).2 "hello" "t" c4Resp (by decide)
  exact ⟨by decide, happ.1, by decide, happ.2 (by decide)⟩

/-- C5, counterexample: a chunk whose text is 250 characters long
yields a source whose excerpt is exactly the first 200 characters with
NO ellipsis appended — `answer_query` pre-truncates the text to 200
characters, so `create_source_reference` never sees an over-long
excerpt and its ellipsis branch never fires. -/
theorem C5_counterexample :
    (answer_query sfBig "hello" "t").map (fun r => r.sources.map (fun s => s.excerpt)) =
      some [String.mk (List.replicate 200 'a')] ∧
    200 < bigChunk.text.length ∧
    String.mk (List.replicate 200 'a') ≠ String.mk (List.replicate 200 'a') ++ "..." := by
  refine ⟨by decide, by decide, by decide⟩

/-- C5, amended: every source reference in a response carries an
excerpt equal to the first (at most) 200 characters of the backing
chunk's text — hard-capped at 200 characters but with NO ellipsis ever
appended, because the caller pre-truncates to 200 characters and the
ellipsis branch of `create_source_reference` requires a strictly
longer excerpt. -/
theorem C5_theorem (sf : String → List SearchResult) (q ts : String) (r : Response)
    (h : answer_query sf q ts = some r) :
    ∀ s ∈ r.sources, s.excerpt.length ≤ 200 ∧
      ∃ c : SearchResult, (∃ sq ∈ decompose_query q, c ∈ sf sq) ∧
        s.excerpt = pySlice c.text 200 := by
  obtain ⟨-, hsrc⟩ := answer_query_fields h
  intro s hs
  rw [hsrc] at hs
  have hs1 : s ∈ dedup_sources (collect_sources
      ((decompose_query q).map (search_and_extract_info sf))) :=
    (List.take_sublist _ _).subset hs
  have hs2 : s ∈ collect_sources
      ((decompose_query q).map (search_and_extract_info sf)) :=
    (dedup_sources_aux_sublist _ _).subset hs1
  obtain ⟨result, hres, hfound, chunk, hchunk, rfl⟩ := collect_sources_mem hs2
  rw [List.mem_map] at hres
  obtain ⟨sq, hsq, rfl⟩ := hres
  have hexc : (create_source_reference chunk.company chunk.year
      (pySlice chunk.text 200) none (some chunk.«section»)).excerpt =
      pySlice chunk.text 200 := by
    unfold create_source_reference
    rw [if_neg (Nat.not_lt.mpr (pySlice_length_le _ _))]
  constructor
  · rw [hexc]
    exact pySlice_length_le _ _
  · refine ⟨chunk, ⟨sq, hsq, ?_⟩, hexc⟩
    have hmem := (List.take_sublist 2 _).subset hchunk
    rw [search_and_extract_info_results hfound] at hmem
    exact hmem

/-- C5, witness: the amended theorem at the concrete long-chunk search
function. -/
theorem C5_witness :
    answer_query sfBig "hello" "t" = some rBig ∧
    (∀ s ∈ rBig.sources, s.excerpt.length ≤ 200 ∧
      ∃ c : SearchResult, (∃ sq ∈ decompose_query "hello", c ∈ sfBig sq) ∧
        s.excerpt = pySlice c.text 200) :=
  ⟨by decide, C5_theorem sfBig "hello" "t" rBig (by decide)⟩

/-- C7: the sources list of every response contains no two entries
with the same (company, year, section) key, is an order-preserving
sublist of the assembled source list in which every kept entry is the
FIRST occurrence of its key, and has length at most 5. -/
theorem C7_theorem (sf : String → List SearchResult) (q ts : String) (r : Response)
    (h : answer_query sf q ts = some r) :
    (r.sources.map sourceKey).Nodup ∧
    r.sources.length ≤ 5 ∧
    List.Sublist r.sources
      (collect_sources ((decompose_query q).map (search_and_extract_info sf))) ∧
    ∀ s ∈ r.sources,
      (collect_sources ((decompose_query q).map (search_and_extract_info sf))).find?
        (fun t => decide (sourceKey t = sourceKey s)) = some s := by
  obtain ⟨-, hsrc⟩ := answer_query_fields h
  refine ⟨?_, ?_, ?_, ?_⟩
  · rw [hsrc]
    exact List.Nodup.sublist
      ((List.take_sublist _ _).map sourceKey)
      (dedup_sources_aux_nodup _ []).1
  · rw [hsrc]
    exact List.length_take_le _ _
  · rw [hsrc]
    exact (List.take_sublist _ _).trans (dedup_sources_aux_sublist _ [])
  · intro s hs
    rw [hsrc] at hs
    exact (dedup_sources_aux_find _ [] s ((List.take_sublist _ _).subset hs)).2

/-- C7, witness: the theorem at a concrete query and search function. -/
theorem C7_witness :
    answer_query sfNone "x" "t" = some r7 ∧
    ((r7.sources.map sourceKey).Nodup ∧
      r7.sources.length ≤ 5 ∧
      List.Sublist r7.sources
        (collect_sources ((decompose_query "x").map (search_and_extract_info sfNone))) ∧
      ∀ s ∈ r7.sources,
        (collect_sources ((decompose_query "x").map (search_and_extract_info sfNone))).find?
          (fun t => decide (sourceKey t = sourceKey s)) = some s) :=
  ⟨by decide, C7_theorem sfNone "x" "t" r7 (by decide)⟩

/-- C6, counterexample: `search` with `top_k = 0` returns ALL chunks,
not at most `min 0 n = 0` of them — Python's `a[-0:]` slice is the
whole array. -/
theorem C6_counterexample :
    (SimpleRAGPipeline.search enc1 p6 "x" 0).length = 1 ∧
    ¬ ((SimpleRAGPipeline.search enc1 p6 "x" 0).length ≤ min 0 p6.chunks.length) := by
  refine ⟨by decide, by decide⟩

/-- C6, amended: for every built index (embeddings aligned with the
`n` stored chunks), every query and every `top_k ≥ 1`, `search`
returns at most `min top_k n` results and the similarity scores of the
returned sequence are non-increasing (the `top_k = 0` case instead
returns every chunk, because Python's `a[-0:]` slice is the whole
array). -/
theorem C6_theorem (encode : String → List ℚ) (p : RAGPipeline)
    (embs : List (List ℚ)) (q : String) (k : Nat)
    (hembs : p.embeddings = some embs)
    (halign : embs.length = p.chunks.length) (hk : 1 ≤ k) :
    (SimpleRAGPipeline.search encode p q k).length ≤ min k p.chunks.length ∧
    List.Sorted (· ≥ ·)
      ((SimpleRAGPipeline.search encode p q k).map (fun r => r.similarity_score)) := by
  unfold SimpleRAGPipeline.search
  cases hm : p.model with
  | none => simp [hm]
  | some u =>
    have hcond : (p.model.isNone || p.embeddings.isNone) = false := by
      rw [hm, hembs]; rfl
    simp only [hcond, Bool.false_eq_true, if_false, hembs, Option.getD_some]
    set sims := embs.map (fun e => SimpleRAGPipeline.dotQ (encode q) e) with hsims
    have hslen : sims.length = p.chunks.length := by
      rw [hsims, List.length_map, halign]
    have hperm : (SimpleRAGPipeline.argsortAsc sims).Perm (List.range sims.length) :=
      List.perm_insertionSort _ _
    have haslen : (SimpleRAGPipeline.argsortAsc sims).length = sims.length := by
      rw [hperm.length_eq, List.length_range]
    have hmem : ∀ i ∈ SimpleRAGPipeline.argsortAsc sims, i < sims.length := by
      intro i hi
      exact List.mem_range.mp (hperm.mem_iff.mp hi)
    have hsorted : (SimpleRAGPipeline.argsortAsc sims).Pairwise
        (fun i j => sims.getD i 0 ≤ sims.getD j 0) := by
      haveI h1 : IsTotal Nat (fun i j => sims.getD i 0 ≤ sims.getD j 0) :=
        ⟨fun a b => le_total _ _⟩
      haveI h2 : IsTrans Nat (fun i j => sims.getD i 0 ≤ sims.getD j 0) :=
        ⟨fun a b c hab hbc => le_trans hab hbc⟩
      exact List.sorted_insertionSort _ _
    have hslice : SimpleRAGPipeline.lastSlice (SimpleRAGPipeline.argsortAsc sims) k =
        (SimpleRAGPipeline.argsortAsc sims).drop
          ((SimpleRAGPipeline.argsortAsc sims).length - k) := by
      unfold SimpleRAGPipeline.lastSlice
      rw [if_neg (by omega)]
    set top := (SimpleRAGPipeline.lastSlice (SimpleRAGPipeline.argsortAsc sims) k).reverse
      with htop
    have htoplen : top.length = min k p.chunks.length := by
      rw [htop, List.length_reverse, hslice, List.length_drop, haslen, hslen]
      omega
    have htopmem : ∀ i ∈ top, i < p.chunks.length := by
      intro i hi
      rw [htop, List.mem_reverse, hslice] at hi
      exact hslen ▸ hmem i ((List.drop_sublist _ _).subset hi)
    have hfm : top.filterMap (fun idx => (p.chunks.get? idx).map (fun c =>
          ({ toChunk := c, similarity_score := sims.getD idx 0 } : SearchResult))) =
        top.map (fun idx =>
          ({ toChunk := p.chunks.getD idx default,
             similarity_score := sims.getD idx 0 } : SearchResult)) := by
      apply filterMap_eq_map_of_forall
      intro i hi
      have hilt := htopmem i hi
      simp [List.getD_eq_get?, List.get?_eq_get hilt, List.getElem?_eq_getElem hilt]
    constructor
    · rw [if_neg (by simp), hfm, List.length_map, htoplen]
    · rw [if_neg (by simp), hfm, List.map_map]
      have hdrop : ((SimpleRAGPipeline.argsortAsc sims).drop
          ((SimpleRAGPipeline.argsortAsc sims).length - k)).Pairwise
          (fun i j => sims.getD i 0 ≤ sims.getD j 0) :=
        List.Pairwise.sublist (List.drop_sublist _ _) hsorted
      have hrev : top.Pairwise (fun i j => sims.getD j 0 ≤ sims.getD i 0) := by
        rw [htop, hslice, List.pairwise_reverse]
        exact hdrop
      exact List.pairwise_map.mpr hrev

/-- C6, witness: the amended theorem at a concrete one-chunk built
index with `top_k = 1`. -/
theorem C6_witness :
    p6.embeddings = some [[(1 : ℚ)]] ∧
    ([[(1 : ℚ)]] : List (List ℚ)).length = p6.chunks.length ∧
    1 ≤ 1 ∧
    ((SimpleRAGPipeline.search enc1 p6 "x" 1).length ≤ min 1 p6.chunks.length ∧
      List.Sorted (· ≥ ·)
        ((SimpleRAGPipeline.search enc1 p6 "x" 1).map (fun r => r.similarity_score))) :=
  ⟨rfl, rfl, le_refl 1, C6_theorem enc1 p6 [[1]] "x" 1 rfl rfl (le_refl 1)⟩
